import Mathlib

/-!
Shallow embedding of the `PilicitaDonovan` Instagram-scraper repository
(`scraper.py`, `analyze_bio.py`, `benford_analysis.py`).

The browser/DOM environment is modelled by explicit oracle values: every
Selenium call that can fail or return page data is represented by a field of
an environment structure (an `Except Unit _` when the surrounding Python code
guards the call with `try/except`, an `Option _` when the call returns a
possibly-missing value).  The Python functions themselves are translated
statement by statement into total Lean functions over those environments.
Python string primitives (`str.strip`, `str.split`, truthiness) are
re-implemented on `List Char` so that every definition reduces in the kernel.
-/

namespace Insta

/-! ## Python string primitives -/

/-- Characters treated as whitespace by Python's `str.strip()` / `\s`
(ASCII whitespace plus the common Unicode space code points). -/
def isPySpace (c : Char) : Bool :=
  c.toNat = 32 || c.toNat = 9 || c.toNat = 10 || c.toNat = 13 ||
  c.toNat = 11 || c.toNat = 12 || c.toNat = 28 || c.toNat = 29 ||
  c.toNat = 30 || c.toNat = 31 || c.toNat = 0x85 || c.toNat = 0xa0 ||
  c.toNat = 0x1680 || (0x2000 ≤ c.toNat && c.toNat ≤ 0x200a) ||
  c.toNat = 0x2028 || c.toNat = 0x2029 || c.toNat = 0x202f ||
  c.toNat = 0x205f || c.toNat = 0x3000

/-- Python `str.strip()` on a character list. -/
def pyStripL (l : List Char) : List Char :=
  ((l.dropWhile isPySpace).reverse.dropWhile isPySpace).reverse

theorem dropWhile_length_le (p : α → Bool) (l : List α) :
    (l.dropWhile p).length ≤ l.length := by
  induction l with
  | nil => exact Nat.le_refl 0
  | cons c rest ih =>
    rw [List.dropWhile_cons]
    by_cases h : p c = true
    · rw [if_pos h]
      exact Nat.le_trans ih (by simp)
    · rw [if_neg h]

theorem takeWhile_append_dropWhile_eq (p : α → Bool) (l : List α) :
    l.takeWhile p ++ l.dropWhile p = l := by
  induction l with
  | nil => rfl
  | cons c rest ih =>
    rw [List.takeWhile_cons, List.dropWhile_cons]
    by_cases h : p c = true
    · rw [if_pos h, if_pos h, List.cons_append, ih]
    · rw [if_neg h, if_neg h, List.nil_append]

/-- Python `str.strip()`. -/
def pyStrip (s : String) : String :=
  ⟨pyStripL s.data⟩

/-- Python `s.split(sep)[0]`: the characters before the first occurrence of
the (one-character) separator. -/
def splitHead (sep : Char) (s : String) : String :=
  ⟨s.data.takeWhile (fun c => c ≠ sep)⟩

/-- Python string truthiness: the empty string is falsy. -/
def pyEmpty (s : String) : Bool :=
  s.data.isEmpty

/-! ## Entity Locator (`scraper.py`: per-field fallback chains)

Each `_get_*` helper in `scraper.py` wraps its DOM access in `try/except`
and returns `None` on any internal failure.  A raw strategy outcome is
therefore an `Except Unit (Option α)`: `.error` is an exception escaping the
strategy body, `.ok v` is the value the body computed (possibly `None`).
`runStrat` is the `try/except Exception: return None` wrapper. -/

/-- The `try/except` wrapper around one extraction strategy: an internal
failure is caught locally and becomes `none` (absent). -/
def runStrat (r : Except Unit (Option α)) : Option α :=
  match r with
  | .ok v => v
  | .error _ => none

/-- The Entity Locator: run the strategies in list order and keep the first
non-absent result (`scraper.py` wires exactly this shape by hand for each
field). -/
def locate (rs : List (Except Unit (Option α))) : Option α :=
  match rs with
  | [] => none
  | r :: rest =>
    match runStrat r with
    | some v => some v
    | none => locate rest

/-- The literal three-strategy chain of `get_profile_info`
(`scraper.py:564-575`): `x = s1(); if x is None: x = s2(); if x is None:
x = s3()`. -/
def chain3 (s1 s2 s3 : Except Unit (Option α)) : Option α :=
  let x1 := runStrat s1
  let x2 := match x1 with
    | none => runStrat s2
    | some v => some v
  match x2 with
  | none => runStrat s3
  | some v => some v

/-! ### Caption strategy chain (`get_recent_captions`, `scraper.py:492-518`)

Method 1 reads `el.text.strip()` from the structured caption element;
method 2 falls back to the post's `og:description` meta content (taking the
part before the first bullet and stripping it); method 3 falls back to the
image `alt` text.  The chain tests Python *truthiness* (`if not caption:`),
so an empty string falls through exactly like `None`. -/

/-- Python truthiness test `if not caption:` on an optional string. -/
def falsyStr (o : Option String) : Bool :=
  match o with
  | none => true
  | some s => pyEmpty s

/-- Environment of one caption extraction: the three raw strategy outcomes.
`m1` is the text of the structured caption element (before `.strip()`),
`m2` the `og:description` attribute (`None` possible), `m3` the image `alt`
attribute (`None` possible); `.error` models an exception inside that
method's `try` block. -/
structure CaptionEnv where
  m1 : Except Unit String
  m2 : Except Unit (Option String)
  m3 : Except Unit (Option String)

/-- The caption fallback chain of `get_recent_captions`, ending with the
final `if caption:` test (an overall falsy result becomes `None`). -/
def captionChain (e : CaptionEnv) : Option String :=
  let c1 : Option String :=
    match e.m1 with
    | .ok t => some (pyStrip t)
    | .error _ => none
  let c2 : Option String :=
    if falsyStr c1 then
      match e.m2 with
      | .ok (some cand) => if pyEmpty cand then c1 else some (pyStrip (splitHead '•' cand))
      | .ok none => c1
      | .error _ => c1
    else c1
  let c3 : Option String :=
    if falsyStr c2 then
      match e.m3 with
      | .ok (some alt) => if pyEmpty alt then c2 else some (pyStrip alt)
      | .ok none => c2
      | .error _ => c2
    else c2
  if falsyStr c3 then none else c3

theorem locate_all_absent (rs : List (Except Unit (Option α)))
    (h : ∀ r ∈ rs, runStrat r = none) : locate rs = none := by
  induction rs with
  | nil => rfl
  | cons r rest ih =>
    have hr := h r (List.mem_cons_self r rest)
    simp only [locate, hr]
    exact ih fun x hx => h x (List.mem_cons_of_mem r hx)

theorem locate_first_some (pre : List (Except Unit (Option α)))
    (r : Except Unit (Option α)) (post : List (Except Unit (Option α)))
    (v : α) (hpre : ∀ x ∈ pre, runStrat x = none) (hr : runStrat r = some v) :
    locate (pre ++ r :: post) = some v := by
  induction pre with
  | nil => simp [locate, hr]
  | cons p ps ih =>
    have hp := hpre p (List.mem_cons_self p ps)
    simp only [List.cons_append, locate, hp]
    exact ih fun x hx => hpre x (List.mem_cons_of_mem p hx)

theorem locate_error_skipped (e : Unit) (rest : List (Except Unit (Option α))) :
    locate (.error e :: rest) = locate rest := by
  simp [locate, runStrat]

theorem chain3_eq_locate (s1 s2 s3 : Except Unit (Option α)) :
    chain3 s1 s2 s3 = locate [s1, s2, s3] := by
  unfold chain3
  cases h1 : runStrat s1 <;> cases h2 : runStrat s2 <;> cases h3 : runStrat s3 <;>
    simp [locate, h1, h2, h3]

theorem captionChain_structured_first (t : String) (m2 m3 : Except Unit (Option String))
    (ht : pyEmpty (pyStrip t) = false) :
    captionChain ⟨.ok t, m2, m3⟩ = some (pyStrip t) := by
  simp [captionChain, falsyStr, ht]

/-- **C6**: for every field, the Entity Locator invokes its strategies in list
order; the first strategy producing a non-absent, validated result
short-circuits the remainder (in particular the structured caption element,
when present with non-empty stripped text, wins over both caption fallbacks);
if all strategies return absent the overall result is absent; and a strategy
whose body raises is treated as that strategy returning absent, never
propagated (`locate` and `chain3` are total functions into `Option`). -/
theorem C6_locator_order_and_absence
    (pre : List (Except Unit (Option Nat))) (r : Except Unit (Option Nat))
    (post rs : List (Except Unit (Option Nat))) (v : Nat) (e : Unit)
    (t : String) (m2 m3 : Except Unit (Option String))
    (hpre : ∀ x ∈ pre, runStrat x = none) (hr : runStrat r = some v)
    (habs : ∀ x ∈ rs, runStrat x = none) (ht : pyEmpty (pyStrip t) = false) :
    locate (pre ++ r :: post) = some v ∧
    locate rs = none ∧
    locate (.error e :: rs) = none ∧
    (∀ a b c : Except Unit (Option Nat), chain3 a b c = locate [a, b, c]) ∧
    captionChain ⟨.ok t, m2, m3⟩ = some (pyStrip t) := by
  refine ⟨locate_first_some pre r post v hpre hr, locate_all_absent rs habs, ?_,
    fun a b c => chain3_eq_locate a b c, captionChain_structured_first t m2 m3 ht⟩
  rw [locate_error_skipped]
  exact locate_all_absent rs habs

/-- Witness for C6 at concrete inputs: the span strategy fails internally,
the meta strategy produces `7`, the page-source strategy would produce `9`
but is short-circuited; an all-absent list gives absent; the structured
caption element's text `"hola"` is used verbatim. -/
theorem C6_witness :
    locate [Except.error (), Except.ok (some 7), Except.ok (some 9)] = some 7 ∧
    locate [Except.error (), Except.ok (none : Option Nat)] = none ∧
    locate [Except.error (), Except.error (), Except.ok (none : Option Nat)] = none ∧
    (∀ a b c : Except Unit (Option Nat), chain3 a b c = locate [a, b, c]) ∧
    captionChain ⟨.ok "hola", .ok (some "otro texto"), .ok (some "alt")⟩ =
      some (pyStrip "hola") := by
  exact C6_locator_order_and_absence [Except.error ()] (Except.ok (some 7))
    [Except.ok (some 9)] [Except.error (), Except.ok (none : Option Nat)] 7 ()
    "hola" (.ok (some "otro texto")) (.ok (some "alt"))
    (by decide) (by rfl) (by decide) (by decide)

/-! ## Caption Sub-Collector (`get_recent_captions`, `scraper.py:467-546`)

The function gathers up to `max_posts` post links from the grid, then for
each link opens the post overlay, runs the caption chain, appends the result
(`None` on failure), and in a `finally` block always attempts to close the
overlay (close button, falling back to an ESC keystroke). -/

/-- Characters at which Python's `str.splitlines()` breaks. -/
def isLineBreak (c : Char) : Bool :=
  c = '\n' || c = '\r' || c = Char.ofNat 0x0b || c = Char.ofNat 0x0c ||
  c = Char.ofNat 0x1c || c = Char.ofNat 0x1d || c = Char.ofNat 0x1e ||
  c = Char.ofNat 0x85 || c = Char.ofNat 0x2028 || c = Char.ofNat 0x2029

/-- Python `str.splitlines()` (no trailing empty line; `\r\n` is one break). -/
def splitLinesAux (acc : List Char) : List Char → List (List Char)
  | [] => if acc.isEmpty then [] else [acc.reverse]
  | '\r' :: '\n' :: rest => acc.reverse :: splitLinesAux [] rest
  | c :: rest =>
    if isLineBreak c then acc.reverse :: splitLinesAux [] rest
    else splitLinesAux (c :: acc) rest

/-- `" ".join(lines)`. -/
def joinWithSpace : List (List Char) → List Char
  | [] => []
  | [x] => x
  | x :: rest => x ++ ' ' :: joinWithSpace rest

/-- `" ".join(caption.splitlines()).strip()`. -/
def pyNormCaption (s : String) : String :=
  pyStrip ⟨joinWithSpace (splitLinesAux [] s.data)⟩

/-- `if len(caption) > 800: caption = caption[:800] + "..."`. -/
def truncate800 (s : String) : String :=
  if 800 < s.data.length then ⟨s.data.take 800⟩ ++ "..." else s

/-- Environment of one per-post iteration of `get_recent_captions`.
`opened` says whether the click actually opened an overlay; `ok` says the
`try` body reached the caption extraction (no exception at the click, the
modal wait or the pacing delay); `closeBtnOk` / `escOk` say whether the close
button and the ESC fallback of the `finally` block succeed. -/
structure PostEnv where
  opened : Bool
  ok : Bool
  cap : CaptionEnv
  closeBtnOk : Bool
  escOk : Bool

/-- State threaded through the per-post loop: the captions accumulated so
far, whether an overlay is currently open, and how many overlay-close
attempts have been performed. -/
structure CapState where
  captions : List (Option String)
  overlayOpen : Bool
  closeAttempts : Nat

/-- The value appended for one post: the normalized, truncated caption when
the `try` body completed and the chain produced a truthy caption, `None`
otherwise (including the `except` path). -/
def postEntry (e : PostEnv) : Option String :=
  if e.ok then
    match captionChain e.cap with
    | some c => some (truncate800 (pyNormCaption c))
    | none => none
  else none

/-- One per-post iteration: open the overlay, append exactly one entry, then
always run the `finally` close attempt (button, else ESC, else nothing). -/
def postStep (st : CapState) (e : PostEnv) : CapState :=
  let opened := st.overlayOpen || e.opened
  let afterClose := if e.closeBtnOk || e.escOk then false else opened
  { captions := st.captions ++ [postEntry e],
    overlayOpen := afterClose,
    closeAttempts := st.closeAttempts + 1 }

/-- The link-collection loop of `get_recent_captions`: append each anchor
whose `href` contains `/p/`, and break as soon as `len(post_links) >=
max_posts` (the check runs after every anchor, appended or not). -/
def collectLinksAux (maxPosts : Nat) (acc : List String) :
    List (Option String) → List String
  | [] => acc.reverse
  | a :: rest =>
    let acc' := match a with
      | some h => h :: acc
      | none => acc
    if maxPosts ≤ acc'.length then acc'.reverse
    else collectLinksAux maxPosts acc' rest

/-- Post links gathered from the grid: `anchors` holds, per anchor, the
`href` when present and containing `/p/`, else `none`. -/
def collectLinks (maxPosts : Nat) (anchors : List (Option String)) : List String :=
  collectLinksAux maxPosts [] anchors

/-- Environment of one `get_recent_captions` call: whether the initial
anchor query succeeds, the anchors found, and the per-post environments. -/
structure CapEnv where
  outerOk : Bool
  anchors : List (Option String)
  posts : Nat → PostEnv

/-- `get_recent_captions(driver, max_posts)`: on an outer failure the list
collected so far (empty) is returned; otherwise one entry is produced per
collected post link. -/
def getRecentCaptions (env : CapEnv) (maxPosts : Nat) : CapState :=
  if env.outerOk then
    let links := collectLinks maxPosts env.anchors
    (List.range links.length).foldl (fun st i => postStep st (env.posts i))
      ⟨[], false, 0⟩
  else ⟨[], false, 0⟩

theorem filterMap_id_cons_some (h : α) (rest : List (Option α)) :
    List.filterMap id (some h :: rest) = h :: List.filterMap id rest := rfl

theorem filterMap_id_cons_none (rest : List (Option α)) :
    List.filterMap id (none :: rest) = List.filterMap id rest := rfl

theorem collectLinksAux_length (maxPosts : Nat) (anchors : List (Option String)) :
    ∀ acc : List String, acc.length < maxPosts →
      (collectLinksAux maxPosts acc anchors).length
        = min maxPosts (acc.length + (anchors.filterMap id).length) := by
  induction anchors with
  | nil =>
    intro acc hacc
    simp [collectLinksAux, Nat.min_eq_right (Nat.le_of_lt hacc)]
  | cons a rest ih =>
    intro acc hacc
    cases a with
    | some h =>
      simp only [collectLinksAux, filterMap_id_cons_some, List.length_cons]
      by_cases hle : maxPosts ≤ acc.length + 1
      · rw [if_pos hle]
        simp only [List.length_reverse, List.length_cons]
        omega
      · rw [if_neg hle]
        have hlt : (h :: acc).length < maxPosts := by
          simp only [List.length_cons]; omega
        rw [ih _ hlt]
        simp only [List.length_cons]
        omega
    | none =>
      simp only [collectLinksAux, filterMap_id_cons_none]
      have : ¬ maxPosts ≤ acc.length := Nat.not_le_of_lt hacc
      rw [if_neg this]
      exact ih acc hacc

theorem capFold_captions (posts : Nat → PostEnv) (l : List Nat) :
    ∀ st : CapState,
      (l.foldl (fun st i => postStep st (posts i)) st).captions
        = st.captions ++ l.map (fun i => postEntry (posts i)) := by
  induction l with
  | nil => intro st; simp
  | cons i rest ih =>
    intro st
    simp only [List.foldl_cons, List.map_cons]
    rw [ih]
    simp [postStep]

theorem capFold_closeAttempts (posts : Nat → PostEnv) (l : List Nat) :
    ∀ st : CapState,
      (l.foldl (fun st i => postStep st (posts i)) st).closeAttempts
        = st.closeAttempts + l.length := by
  induction l with
  | nil => intro st; simp
  | cons i rest ih =>
    intro st
    simp only [List.foldl_cons, List.length_cons]
    rw [ih]
    simp only [postStep]
    omega

theorem capFold_overlay (posts : Nat → PostEnv) (l : List Nat)
    (hclose : ∀ i, (posts i).closeBtnOk = true ∨ (posts i).escOk = true) :
    ∀ st : CapState, st.overlayOpen = false →
      (l.foldl (fun st i => postStep st (posts i)) st).overlayOpen = false := by
  induction l with
  | nil => intro st h; simpa using h
  | cons i rest ih =>
    intro st h
    simp only [List.foldl_cons]
    apply ih
    simp only [postStep]
    rcases hclose i with hc | hc <;> simp [hc]

/-- **C1 counterexample**: with a profile showing zero posts
(no anchors), `get_recent_captions(driver, max_posts=3)` returns a list of
length `0`, not `3` — the result is not absent-filled up to `max`. -/
theorem C1_counterexample :
    (getRecentCaptions
      ⟨true, [],
        fun _ => ⟨false, false, ⟨.error (), .error (), .error ()⟩, false, false⟩⟩
      3).captions.length = 0 ∧ (0 : Nat) ≠ 3 := by
  exact ⟨by decide, by decide⟩

/-- **C1 (amended)**: when the initial anchor query succeeds and `max ≥ 1`,
`get_recent_captions` returns a sequence of length
`min max (number of post references found)` — not always exactly `max` —
and exactly one entry (the caption, or `None` when the lookup failed) is
appended per processed post reference. -/
theorem C1_captions_length (env : CapEnv) (maxPosts : Nat)
    (houter : env.outerOk = true) (hmax : 1 ≤ maxPosts) :
    (getRecentCaptions env maxPosts).captions.length
      = min maxPosts (env.anchors.filterMap id).length ∧
    (getRecentCaptions env maxPosts).captions
      = (List.range (collectLinks maxPosts env.anchors).length).map
          (fun i => postEntry (env.posts i)) := by
  have hlen : (collectLinks maxPosts env.anchors).length
      = min maxPosts (env.anchors.filterMap id).length := by
    have := collectLinksAux_length maxPosts env.anchors []
      (by simp only [List.length_nil]; omega)
    simpa [collectLinks] using this
  constructor
  · simp only [getRecentCaptions, houter, if_true]
    rw [capFold_captions]
    simp [hlen]
  · simp only [getRecentCaptions, houter, if_true]
    rw [capFold_captions]
    simp

/-- Witness for C1 (amended): three anchors of which two are post links,
`max = 3` — the returned list has `min 3 2 = 2` entries, one per link. -/
theorem C1_witness :
    (getRecentCaptions
      ⟨true, [some "p1", none, some "p2"],
        fun _ => ⟨true, true, ⟨.ok "hola", .error (), .error ()⟩, true, false⟩⟩
      3).captions.length
      = min 3 (([some "p1", none, some "p2"].filterMap id).length) ∧
    (getRecentCaptions
      ⟨true, [some "p1", none, some "p2"],
        fun _ => ⟨true, true, ⟨.ok "hola", .error (), .error ()⟩, true, false⟩⟩
      3).captions
      = (List.range (collectLinks 3 [some "p1", none, some "p2"]).length).map
          (fun _ =>
            postEntry ⟨true, true, ⟨.ok "hola", .error (), .error ()⟩, true, false⟩) := by
  exact C1_captions_length
    ⟨true, [some "p1", none, some "p2"],
      fun _ => ⟨true, true, ⟨.ok "hola", .error (), .error ()⟩, true, false⟩⟩
    3 rfl (by decide)

/-- **C4**: after any `get_recent_captions` call, provided the per-post close
mechanism works (the dedicated close control succeeds, or else the cancel
keystroke does), zero overlays remain open; and the overlay-close attempt of
the `finally` block is performed exactly once per processed post — on every
path through the iteration, including failed or raising caption lookups —
before the next post and before returning. -/
theorem C4_overlay_release (env : CapEnv) (maxPosts : Nat)
    (hclose : ∀ i, (env.posts i).closeBtnOk = true ∨ (env.posts i).escOk = true) :
    (getRecentCaptions env maxPosts).overlayOpen = false ∧
    (getRecentCaptions env maxPosts).closeAttempts
      = (if env.outerOk then (collectLinks maxPosts env.anchors).length else 0) := by
  unfold getRecentCaptions
  cases houter : env.outerOk with
  | false => simp
  | true =>
    simp only [if_true]
    refine ⟨capFold_overlay env.posts _ hclose _ rfl, ?_⟩
    rw [capFold_closeAttempts]
    simp

/-- Witness for C4: two post links whose caption lookups both fail (`ok =
false`); the close button fails on both but ESC succeeds — no overlay
remains open and two close attempts were made. -/
theorem C4_witness :
    (getRecentCaptions
      ⟨true, [some "p1", some "p2"],
        fun _ => ⟨true, false, ⟨.error (), .error (), .error ()⟩, false, true⟩⟩
      3).overlayOpen = false ∧
    (getRecentCaptions
      ⟨true, [some "p1", some "p2"],
        fun _ => ⟨true, false, ⟨.error (), .error (), .error ()⟩, false, true⟩⟩
      3).closeAttempts
      = (if true then (collectLinks 3 [some "p1", some "p2"]).length else 0) := by
  exact C4_overlay_release
    ⟨true, [some "p1", some "p2"],
      fun _ => ⟨true, false, ⟨.error (), .error (), .error ()⟩, false, true⟩⟩
    3 (fun _ => Or.inr rfl)

/-! ## Incremental Set Collector (`scrape_followers`, `scraper.py:264-404`)

The pagination loop is modelled with explicit fuel (`none` = fuel exhausted,
`some s` = the Python loop exited, by whichever `break` or guard).  The
environment delivers, per iteration, either a normal step (the re-queried
candidate link list, each candidate being `some username` after a successful
`href` read and `extract_username_from_url`, and the scroll-offset read,
`none` when both the read and the modal re-acquisition fail) or an exception
escaping the iteration body (`raise`, with the candidates added before the
exception and whether the modal could be re-acquired). -/

/-- One iteration's environment for the `scrape_followers` loop. -/
inductive IterEvent where
  | normal (links : List (Option String)) (scrollRead : Option Nat)
  | raise (linksBefore : List (Option String)) (recovered : Bool)

/-- Loop state of `scrape_followers`.  `followers` models the Python set as
an insertion-ordered duplicate-free list; `seen` is a ghost trace of every
candidate username processed; `forced` counts the extra forced-scroll
attempts (`scrollTop + 1000`); `iterStart` records the follower count at the
entry of the last executed iteration. -/
structure LoopState where
  followers : List String
  seen : List String
  lastScroll : Nat
  noChange : Nat
  consecErrors : Nat
  forced : Nat
  iterStart : Nat
  deriving DecidableEq

/-- `if username and username not in followers: followers.add(username)`. -/
def insertIfNew (fs : List String) (u : String) : List String :=
  if u ∈ fs then fs else fs ++ [u]

/-- Process one re-queried candidate list in order. -/
def addLinks (fs : List String) (ls : List (Option String)) : List String :=
  ls.foldl (fun fs o =>
    match o with
    | some u => insertIfNew fs u
    | none => fs) fs

/-- First-seen deduplication of a username trace. -/
def dedupFS (l : List String) : List String :=
  l.foldl insertIfNew []

/-- The `while len(followers) < limit` loop of `scrape_followers`, with
fuel.  `noChangeMax` is `SCRAPING_CONFIG['no_change_max']`, and
`maxConsecErr` the hard-coded `max_consecutive_errors = 3`. -/
def followersLoop (env : Nat → IterEvent) (limit noChangeMax maxConsecErr : Nat) :
    Nat → Nat → LoopState → Option LoopState
  | 0, _, _ => none
  | fuel + 1, i, s =>
    if s.followers.length < limit then
      let s1 : LoopState := { s with iterStart := s.followers.length }
      match env i with
      | .normal ls read =>
        let fs := addLinks s1.followers ls
        let sn := s1.seen ++ ls.filterMap id
        if limit ≤ fs.length then
          some { s1 with followers := fs, seen := sn }
        else
          match read with
          | none => some { s1 with followers := fs, seen := sn }
          | some pos =>
            if pos = s1.lastScroll then
              let nc := s1.noChange + 1
              if noChangeMax ≤ nc then
                some { s1 with followers := fs, seen := sn, noChange := nc }
              else
                followersLoop env limit noChangeMax maxConsecErr fuel (i + 1)
                  { s1 with followers := fs, seen := sn, noChange := nc,
                            forced := s1.forced + 1 }
            else
              followersLoop env limit noChangeMax maxConsecErr fuel (i + 1)
                { s1 with followers := fs, seen := sn, lastScroll := pos,
                          noChange := 0, consecErrors := 0 }
      | .raise ls recov =>
        let fs := addLinks s1.followers ls
        let sn := s1.seen ++ ls.filterMap id
        let ce := s1.consecErrors + 1
        if maxConsecErr ≤ ce then
          some { s1 with followers := fs, seen := sn, consecErrors := ce }
        else if recov then
          followersLoop env limit noChangeMax maxConsecErr fuel (i + 1)
            { s1 with followers := fs, seen := sn, consecErrors := ce }
        else
          some { s1 with followers := fs, seen := sn, consecErrors := ce }
    else some s

/-- Initial loop state (`last_scroll_position = 0`, `no_change_count = 0`,
`consecutive_errors = 0`, empty set). -/
def initLoopState : LoopState :=
  ⟨[], [], 0, 0, 0, 0, 0⟩

/-- Environment of a whole `scrape_followers` call: the header wait, the
followers-modal opening click, the scrollable-container detection, and the
per-iteration events. -/
structure ScrapeEnv where
  headerOk : Bool
  modalOpenOk : Bool
  modalFound : Bool
  iter : Nat → IterEvent

/-- `scrape_followers(driver, profile, limit)`: each precondition failure
returns the empty set; otherwise the pagination loop runs. -/
def scrapeFollowers (env : ScrapeEnv) (limit noChangeMax fuel : Nat) :
    Option (List String) :=
  if env.headerOk then
    if env.modalOpenOk then
      if env.modalFound then
        (followersLoop env.iter limit noChangeMax 3 fuel 0 initLoopState).map
          LoopState.followers
      else some []
    else some []
  else some []

theorem addLinks_eq_foldl (ls : List (Option String)) :
    ∀ fs : List String, addLinks fs ls = (ls.filterMap id).foldl insertIfNew fs := by
  induction ls with
  | nil => intro fs; rfl
  | cons o rest ih =>
    intro fs
    cases o with
    | some u => simp only [addLinks, List.foldl_cons, filterMap_id_cons_some] at *; exact ih _
    | none => simp only [addLinks, List.foldl_cons, filterMap_id_cons_none] at *; exact ih _

theorem addLinks_dedup (sn : List String) (ls : List (Option String)) :
    addLinks (dedupFS sn) ls = dedupFS (sn ++ ls.filterMap id) := by
  rw [addLinks_eq_foldl, dedupFS, dedupFS, List.foldl_append]

theorem insertIfNew_nodup (fs : List String) (u : String) (h : fs.Nodup) :
    (insertIfNew fs u).Nodup := by
  unfold insertIfNew
  by_cases hm : u ∈ fs
  · simpa [hm]
  · simp [hm, List.nodup_append, h]

theorem foldl_insertIfNew_nodup (l : List String) :
    ∀ fs : List String, fs.Nodup → (l.foldl insertIfNew fs).Nodup := by
  induction l with
  | nil => intro fs h; simpa
  | cons u rest ih =>
    intro fs h
    exact ih _ (insertIfNew_nodup fs u h)

theorem dedupFS_nodup (l : List String) : (dedupFS l).Nodup :=
  foldl_insertIfNew_nodup l [] List.nodup_nil

theorem followersLoop_invariant (env : Nat → IterEvent) (limit ncm mce : Nat) :
    ∀ fuel i s s', s.followers = dedupFS s.seen → s.iterStart < limit →
      followersLoop env limit ncm mce fuel i s = some s' →
      s'.followers = dedupFS s'.seen ∧ s'.iterStart < limit := by
  intro fuel
  induction fuel with
  | zero =>
    intro i s s' _ _ hrun
    simp [followersLoop] at hrun
  | succ fuel ih =>
    intro i s s' h1 h2 hrun
    rw [followersLoop] at hrun
    by_cases hg : s.followers.length < limit
    · rw [if_pos hg] at hrun
      cases henv : env i with
      | normal ls read =>
        rw [henv] at hrun
        simp only at hrun
        by_cases hlim : limit ≤ (addLinks s.followers ls).length
        · rw [if_pos hlim] at hrun
          cases hrun
          exact ⟨by simpa [h1] using addLinks_dedup s.seen ls, hg⟩
        · rw [if_neg hlim] at hrun
          cases read with
          | none =>
            cases hrun
            exact ⟨by simpa [h1] using addLinks_dedup s.seen ls, hg⟩
          | some pos =>
            simp only at hrun
            by_cases hpos : pos = s.lastScroll
            · rw [if_pos hpos] at hrun
              by_cases hnc : ncm ≤ s.noChange + 1
              · rw [if_pos hnc] at hrun
                cases hrun
                exact ⟨by simpa [h1] using addLinks_dedup s.seen ls, hg⟩
              · rw [if_neg hnc] at hrun
                exact ih _ _ _ (by simpa [h1] using addLinks_dedup s.seen ls) hg hrun
            · rw [if_neg hpos] at hrun
              exact ih _ _ _ (by simpa [h1] using addLinks_dedup s.seen ls) hg hrun
      | raise ls recov =>
        rw [henv] at hrun
        simp only at hrun
        by_cases hce : mce ≤ s.consecErrors + 1
        · rw [if_pos hce] at hrun
          cases hrun
          exact ⟨by simpa [h1] using addLinks_dedup s.seen ls, hg⟩
        · rw [if_neg hce] at hrun
          cases recov with
          | true =>
            simp only [if_true] at hrun
            exact ih _ _ _ (by simpa [h1] using addLinks_dedup s.seen ls) hg hrun
          | false =>
            simp only [Bool.false_eq_true, if_false] at hrun
            cases hrun
            exact ⟨by simpa [h1] using addLinks_dedup s.seen ls, hg⟩
    · rw [if_neg hg] at hrun
      cases hrun
      exact ⟨h1, h2⟩

/-- **C2 counterexample**: with `limit = 1` and a first iteration revealing
the two fresh usernames `a` and `b`, `scrape_followers` returns a set of
size `2 > limit`: all candidates of an iteration are added before the limit
check, so the size is not bounded by `limit` and differs from
`min(limit, reachable)`. -/
theorem C2_counterexample :
    scrapeFollowers ⟨true, true, true, fun _ => .normal [some "a", some "b"] (some 0)⟩
      1 3 5 = some ["a", "b"] ∧ ¬ ((["a", "b"] : List String).length ≤ 1) := by
  exact ⟨by decide, by decide⟩

/-- **C2 (amended)**: for every run with `limit > 0`, the returned set
contains no duplicate identifiers and is exactly the first-seen
deduplication of every candidate processed before termination; the loop
never starts an iteration once the size has reached `limit` (the follower
count at the entry of the last executed iteration is `< limit`), but the
final iteration adds all its candidates before the limit check, so the final
size may exceed `limit`. -/
theorem C2_dedup_no_overshoot_entry (env : Nat → IterEvent)
    (limit ncm mce fuel : Nat) (s' : LoopState) (hlim : 0 < limit)
    (hrun : followersLoop env limit ncm mce fuel 0 initLoopState = some s') :
    s'.followers = dedupFS s'.seen ∧ s'.followers.Nodup ∧ s'.iterStart < limit := by
  obtain ⟨hf, hi⟩ := followersLoop_invariant env limit ncm mce fuel 0
    initLoopState s' rfl hlim hrun
  exact ⟨hf, hf ▸ dedupFS_nodup s'.seen, hi⟩

/-- Witness for C2 (amended): the run of the counterexample environment,
with its concrete final state. -/
theorem C2_witness :
    (⟨["a", "b"], ["a", "b"], 0, 0, 0, 0, 0⟩ : LoopState).followers
      = dedupFS (⟨["a", "b"], ["a", "b"], 0, 0, 0, 0, 0⟩ : LoopState).seen ∧
    (⟨["a", "b"], ["a", "b"], 0, 0, 0, 0, 0⟩ : LoopState).followers.Nodup ∧
    (⟨["a", "b"], ["a", "b"], 0, 0, 0, 0, 0⟩ : LoopState).iterStart < 1 := by
  exact C2_dedup_no_overshoot_entry
    (fun _ => .normal [some "a", some "b"] (some 0)) 1 3 3 5 _ (by decide) (by decide)

theorem followersLoop_const_stagnation (ls : Nat → List (Option String)) (c : Nat)
    (limit ncm mce : Nat) :
    ∀ k fuel i s, s.lastScroll = c → ncm ≤ s.noChange + k → k + 1 ≤ fuel →
      (followersLoop (fun j => .normal (ls j) (some c)) limit ncm mce fuel i s).isSome := by
  intro k
  induction k with
  | zero =>
    intro fuel i s hls hnc hf
    obtain ⟨fuel', rfl⟩ : ∃ f, fuel = f + 1 := ⟨fuel - 1, by omega⟩
    rw [followersLoop]
    by_cases hg : s.followers.length < limit
    · rw [if_pos hg]
      simp only
      by_cases hlim : limit ≤ (addLinks s.followers (ls i)).length
      · rw [if_pos hlim]; rfl
      · rw [if_neg hlim]
        rw [if_pos hls.symm]
        rw [if_pos (by omega : ncm ≤ s.noChange + 1)]
        rfl
    · rw [if_neg hg]; rfl
  | succ k ih =>
    intro fuel i s hls hnc hf
    obtain ⟨fuel', rfl⟩ : ∃ f, fuel = f + 1 := ⟨fuel - 1, by omega⟩
    rw [followersLoop]
    by_cases hg : s.followers.length < limit
    · rw [if_pos hg]
      simp only
      by_cases hlim : limit ≤ (addLinks s.followers (ls i)).length
      · rw [if_pos hlim]; rfl
      · rw [if_neg hlim]
        rw [if_pos hls.symm]
        by_cases hnc1 : ncm ≤ s.noChange + 1
        · rw [if_pos hnc1]; rfl
        · rw [if_neg hnc1]
          exact ih fuel' (i + 1) _ hls (by simp only; omega) (by omega)
    · rw [if_neg hg]; rfl

theorem followersLoop_pure_stagnation (ncm limit : Nat) :
    ∀ k, 1 ≤ k → ∀ fuel i s, k + s.noChange = ncm → k + 1 ≤ fuel →
      s.lastScroll = 0 → s.followers.length < limit →
      followersLoop (fun _ => .normal [] (some 0)) limit ncm 3 fuel i s
        = some { s with noChange := ncm, forced := s.forced + (k - 1),
                        iterStart := s.followers.length } := by
  intro k
  induction k with
  | zero => intro h; omega
  | succ k ih =>
    intro _ fuel i s hk hf hls hlen
    obtain ⟨fuel', rfl⟩ : ∃ f, fuel = f + 1 := ⟨fuel - 1, by omega⟩
    rw [followersLoop]
    rw [if_pos hlen]
    simp only
    rw [if_neg (by simpa [addLinks] using Nat.not_le_of_lt hlen)]
    rw [if_pos hls.symm]
    cases k with
    | zero =>
      rw [if_pos (by omega : ncm ≤ s.noChange + 1)]
      have hnc : s.noChange + 1 = ncm := by omega
      simp [addLinks, hnc]
    | succ k =>
      rw [if_neg (by omega : ¬ ncm ≤ s.noChange + 1)]
      have hrec := ih (by omega) fuel' (i + 1)
        ⟨addLinks s.followers [], s.seen ++ List.filterMap id [], s.lastScroll,
         s.noChange + 1, s.consecErrors, s.forced + 1, s.followers.length⟩
        (by show k + 1 + (s.noChange + 1) = ncm; omega) (by omega)
        (by show s.lastScroll = 0; exact hls)
        (by show (addLinks s.followers []).length < limit
            simpa [addLinks] using hlen)
      refine Eq.trans ?_ (hrec.trans ?_)
      · rfl
      · simp only [Option.some.injEq, LoopState.mk.injEq, addLinks,
          List.foldl_nil, List.filterMap_nil, List.append_nil, true_and,
          and_true]
        omega

/-- **C3 counterexample**: against a container whose scroll offset never
changes (constant read `0`, no candidates), with stagnation bound `3`, the
loop terminates with `noChange = 3` stagnant iterations but only `forced =
2` extra forced-scroll attempts: on the final stagnant iteration the loop
breaks *before* the extra forced-scroll attempt, so it does not perform one
such attempt per stagnant iteration (nor a final one before terminating). -/
theorem C3_counterexample :
    followersLoop (fun _ => .normal [] (some 0)) 5 3 3 5 0 initLoopState
      = some ⟨[], [], 0, 3, 0, 2, 0⟩ ∧ (2 : Nat) ≠ 3 := by
  exact ⟨by decide, by decide⟩

/-- **C3 (amended)**: for any container whose scroll offset never changes
across iterations, the pagination loop terminates within the fixed
stagnation bound of consecutive no-change iterations (fuel
`noChangeMax + 2` always suffices), performing one extra forced-scroll
attempt per stagnant iteration *except the final one*, at which it breaks
immediately: a pure stagnation run ends with `noChange = noChangeMax` and
`forced = noChangeMax - 1`. -/
theorem C3_stagnation_terminates :
    (∀ (ls : Nat → List (Option String)) (c limit mce ncm : Nat),
      (followersLoop (fun j => .normal (ls j) (some c)) limit ncm mce
        (ncm + 2) 0 initLoopState).isSome) ∧
    (∀ ncm limit : Nat, 1 ≤ ncm → 1 ≤ limit →
      followersLoop (fun _ => .normal [] (some 0)) limit ncm 3
        (ncm + 2) 0 initLoopState = some ⟨[], [], 0, ncm, 0, ncm - 1, 0⟩) := by
  constructor
  · intro ls c limit mce ncm
    by_cases hc : c = 0
    · subst hc
      exact followersLoop_const_stagnation ls 0 limit ncm mce ncm (ncm + 2) 0
        initLoopState rfl (by simp [initLoopState]) (by omega)
    · rw [followersLoop]
      by_cases hg : (initLoopState).followers.length < limit
      · rw [if_pos hg]
        simp only
        by_cases hlim : limit ≤ (addLinks (initLoopState).followers (ls 0)).length
        · rw [if_pos hlim]; rfl
        · rw [if_neg hlim]
          rw [if_neg (by simpa [initLoopState] using hc)]
          exact followersLoop_const_stagnation ls c limit ncm mce ncm (ncm + 1) 1 _
            rfl (by simp only; omega) (by omega)
      · rw [if_neg hg]; rfl
  · intro ncm limit h1 h2
    have := followersLoop_pure_stagnation ncm limit ncm h1 (ncm + 2) 0 initLoopState
      (by simp [initLoopState]) (by omega) rfl (by simpa [initLoopState] using h2)
    simpa [initLoopState] using this

/-- Witness for C3 (amended) at `noChangeMax = 3`, `limit = 5`. -/
theorem C3_witness :
    (followersLoop (fun j => .normal ((fun _ => []) j) (some 0)) 5 3 3
      (3 + 2) 0 initLoopState).isSome ∧
    followersLoop (fun _ => .normal [] (some 0)) 5 3 3 (3 + 2) 0 initLoopState
      = some ⟨[], [], 0, 3, 0, 3 - 1, 0⟩ := by
  exact ⟨C3_stagnation_terminates.1 (fun _ => []) 0 5 3 3,
    C3_stagnation_terminates.2 3 5 (by decide) (by decide)⟩

/-! ## Profile Enrichment Pipeline (`get_profile_info`, `scraper.py:549-616`)

`get_profile_info` navigates, waits for the header ready marker, runs the
three-strategy chains for the follower and following counts, the internal
multi-method helpers for name and bio (each internally guarded, never
raising), and the Caption Sub-Collector; on a `TimeoutException` or any
other exception it returns the record with every field absent except the
username. -/

/-- The record assembled per identifier (`username`, `name`, `followers`,
`following`, `bio`, `recent_captions`). -/
structure ProfileRecord where
  username : String
  name : Option String
  followers : Option Nat
  following : Option Nat
  bio : Option String
  recentCaptions : List (Option String)
  deriving DecidableEq

/-- Environment of one `get_profile_info` call: the header wait outcome, a
generic in-body exception flag, the raw outcomes of the three follower and
three following strategies, the (internally guarded) name and bio helper
results, and the caption sub-collector environment. -/
structure ProfileInfoEnv where
  headerOk : Bool
  bodyRaise : Bool
  fSpans : Except Unit (Option Nat)
  fMeta : Except Unit (Option Nat)
  fSrc : Except Unit (Option Nat)
  gSpans : Except Unit (Option Nat)
  gMeta : Except Unit (Option Nat)
  gSrc : Except Unit (Option Nat)
  fullName : Option String
  bio : Option String
  cap : CapEnv

/-- The fallback record of both `except` branches: all fields absent except
the identifier, and an empty caption list. -/
def emptyRecord (username : String) : ProfileRecord :=
  ⟨username, none, none, none, none, []⟩

/-- `get_profile_info(driver, username, posts_to_extract)`. -/
def getProfileInfo (e : ProfileInfoEnv) (username : String)
    (postsToExtract : Nat) : ProfileRecord :=
  if e.headerOk = false then emptyRecord username
  else if e.bodyRaise then emptyRecord username
  else
    { username := username
      name := e.fullName
      followers := chain3 e.fSpans e.fMeta e.fSrc
      following := chain3 e.gSpans e.gMeta e.gSrc
      bio := e.bio
      recentCaptions :=
        if 0 < postsToExtract then (getRecentCaptions e.cap postsToExtract).captions
        else [] }

/-- **C5**: an unreachable target is terminal only for that identifier: when
the profile page fails to render its header ready marker within the bounded
wait, `get_profile_info` returns — it is a total function, nothing is
raised — the record whose identifier is the input and whose every other
field is absent, and `scrape_followers` returns the empty set. -/
theorem C5_unreachable_soft_failure (e : ProfileInfoEnv) (username : String)
    (p : Nat) (senv : ScrapeEnv) (limit ncm fuel : Nat)
    (hp : e.headerOk = false) (hs : senv.headerOk = false) :
    getProfileInfo e username p
      = { username := username, name := none, followers := none,
          following := none, bio := none, recentCaptions := [] } ∧
    scrapeFollowers senv limit ncm fuel = some [] := by
  constructor
  · simp [getProfileInfo, hp, emptyRecord]
  · simp [scrapeFollowers, hs]

/-- Witness for C5: a concrete environment whose header wait times out. -/
theorem C5_witness :
    getProfileInfo
      ⟨false, false, .ok (some 5), .ok none, .error (), .ok (some 2), .ok none,
        .error (), some "Nombre", some "bio",
        ⟨true, [some "p1"], fun _ => ⟨true, true, ⟨.ok "t", .error (), .error ()⟩,
          true, true⟩⟩⟩
      "alice" 3
      = { username := "alice", name := none, followers := none,
          following := none, bio := none, recentCaptions := [] } ∧
    scrapeFollowers ⟨false, true, true, fun _ => .normal [] (some 0)⟩ 5 3 9
      = some [] := by
  exact C5_unreachable_soft_failure _ "alice" 3 _ 5 3 9 rfl rfl

/-! ## Batch Driver (`collect_followers_data`, `scraper.py:619-660`) -/

/-- `usernames_list = list(usernames_set); if max_profiles:
usernames_list = usernames_list[:max_profiles]` (Python truthiness: `None`
and `0` leave the list untruncated). -/
def truncateProfiles (usernames : List String) (maxProfiles : Option Nat) :
    List String :=
  match maxProfiles with
  | some m => if m = 0 then usernames else usernames.take m
  | none => usernames

/-- The `for index, username in enumerate(usernames_list)` loop: one
`get_profile_info` call — and exactly one appended record — per username,
each with its own per-position environment. -/
def collectLoop (envAt : Nat → ProfileInfoEnv) (p : Nat) :
    Nat → List String → List ProfileRecord
  | _, [] => []
  | i, u :: rest =>
    getProfileInfo (envAt i) u p :: collectLoop envAt p (i + 1) rest

/-- `collect_followers_data(driver, usernames_set, max_profiles,
posts_to_extract)`: the record list, the `successful` count (records whose
`followers` is not `None`) and the `failed` count (`total - successful`). -/
def collectFollowersData (envAt : Nat → ProfileInfoEnv)
    (usernames : List String) (maxProfiles : Option Nat) (p : Nat) :
    List ProfileRecord × Nat × Nat :=
  let lst := truncateProfiles usernames maxProfiles
  let records := collectLoop envAt p 0 lst
  let successful := records.countP (fun r => r.followers.isSome)
  (records, successful, lst.length - successful)

theorem collectLoop_eq_enumFrom (envAt : Nat → ProfileInfoEnv) (p : Nat) :
    ∀ (l : List String) (i : Nat),
      collectLoop envAt p i l
        = (List.enumFrom i l).map (fun iu => getProfileInfo (envAt iu.1) iu.2 p) := by
  intro l
  induction l with
  | nil => intro i; rfl
  | cons u rest ih =>
    intro i
    simp only [collectLoop, List.enumFrom, List.map_cons]
    rw [ih]

/-- **C7**: in the Batch Driver, a failure of the Profile Enrichment
Pipeline for identifier `i` cannot prevent identifier `i + 1` from being
attempted: every member of the cap-truncated input list yields exactly one
output record, computed only from that member's own identifier and
environment; and the final summary counts a record as successful exactly
when its follower count is non-absent, with `failed = total - successful`. -/
theorem C7_batch_non_corruption (envAt : Nat → ProfileInfoEnv)
    (usernames : List String) (mp : Option Nat) (p : Nat) :
    (collectFollowersData envAt usernames mp p).1
      = (truncateProfiles usernames mp).enum.map
          (fun iu => getProfileInfo (envAt iu.1) iu.2 p) ∧
    (collectFollowersData envAt usernames mp p).1.length
      = (truncateProfiles usernames mp).length ∧
    (collectFollowersData envAt usernames mp p).2.1
      = (collectFollowersData envAt usernames mp p).1.countP
          (fun r => r.followers.isSome) ∧
    (collectFollowersData envAt usernames mp p).2.2
      = (truncateProfiles usernames mp).length
        - (collectFollowersData envAt usernames mp p).2.1 := by
  refine ⟨?_, ?_, rfl, rfl⟩
  · exact collectLoop_eq_enumFrom envAt p (truncateProfiles usernames mp) 0
  · rw [show (collectFollowersData envAt usernames mp p).1
        = collectLoop envAt p 0 (truncateProfiles usernames mp) from rfl]
    rw [collectLoop_eq_enumFrom]
    simp

/-! ## Downstream JSON consumers (`analyze_bio.py:260-273`,
`benford_analysis.py:15-33`)

Both consumers load the collected dataset from JSON; the value is modelled
by a small JSON type.  Object key lookup is first-match over the key/value
list (JSON objects have unique keys). -/

/-- A JSON value. -/
inductive Json where
  | null
  | jbool (b : Bool)
  | jnum (n : Int)
  | jstr (s : String)
  | jarr (xs : List Json)
  | jobj (kvs : List (String × Json))

/-- Python `data[k]` / `k in data` on a parsed JSON object. -/
def lookupKey (kvs : List (String × Json)) (k : String) : Option Json :=
  match kvs with
  | [] => none
  | kv :: rest => if kv.1 = k then some kv.2 else lookupKey rest k

/-- `v["username"] = v.get("username", k)`: keep an existing key (the
reassignment of the same value leaves the dict unchanged), else append it. -/
def setUsernameDefault (k : String) (fields : List (String × Json)) :
    List (String × Json) :=
  match lookupKey fields "username" with
  | some _ => fields
  | none => fields ++ [("username", .jstr k)]

/-- The record extraction of `analyze_bio.main`: an object with a `data` key
takes `data["data"]` (iterating a non-sequence value fails downstream,
modelled as an error); a bare list is taken as is; any other dict is read as
a username-to-info mapping; anything else yields the empty record list. -/
def recordsInput (data : Json) : Except Unit (List Json) :=
  match data with
  | .jobj kvs =>
    match lookupKey kvs "data" with
    | some (.jarr l) => .ok l
    | some _ => .error ()
    | none =>
      .ok (kvs.filterMap (fun kv =>
        match kv.2 with
        | .jobj fields => some (Json.jobj (setUsernameDefault kv.1 fields))
        | _ => none))
  | .jarr l => .ok l
  | _ => .ok []

/-- `cargar_json_instagram` of `benford_analysis.py`, up to the row list
handed to `pd.DataFrame`: a bare list; an object whose `data` key holds a
list; otherwise the first key whose value is a non-empty list of objects;
otherwise the single-row frame `[data]`; a non-object non-list input fails
(modelled as an error). -/
def cargarRows (data : Json) : Except Unit (List Json) :=
  match data with
  | .jarr l => .ok l
  | .jobj kvs =>
    match lookupKey kvs "data" with
    | some (.jarr l) => .ok l
    | _ =>
      match (kvs.find? (fun kv =>
        match kv.2 with
        | .jarr (x :: _) =>
          match x with
          | .jobj _ => true
          | _ => false
        | _ => false)).map Prod.snd with
      | some (.jarr l) => .ok l
      | _ => .ok [Json.jobj kvs]
  | _ => .error ()

/-- **C8**: both downstream consumers — the Text Classifier's input loader
(`analyze_bio.main`) and the Reporting Sink's JSON loader
(`cargar_json_instagram`) — accept the dataset both as a bare sequence of
records and as an envelope object whose `data` key wraps that sequence, and
extract the same record sequence in all four cases. -/
theorem C8_format_tolerance (l : List Json) (kvs : List (String × Json))
    (h : lookupKey kvs "data" = some (.jarr l)) :
    recordsInput (.jarr l) = .ok l ∧
    cargarRows (.jarr l) = .ok l ∧
    recordsInput (.jobj kvs) = .ok l ∧
    cargarRows (.jobj kvs) = .ok l := by
  refine ⟨rfl, rfl, ?_, ?_⟩
  · simp [recordsInput, h]
  · simp [cargarRows, h]

/-- Witness for C8: a one-record dataset in both accepted shapes. -/
theorem C8_witness :
    recordsInput (.jarr [Json.jobj [("username", .jstr "a")]])
      = .ok [Json.jobj [("username", .jstr "a")]] ∧
    cargarRows (.jarr [Json.jobj [("username", .jstr "a")]])
      = .ok [Json.jobj [("username", .jstr "a")]] ∧
    recordsInput (.jobj [("data", .jarr [Json.jobj [("username", .jstr "a")]])])
      = .ok [Json.jobj [("username", .jstr "a")]] ∧
    cargarRows (.jobj [("data", .jarr [Json.jobj [("username", .jstr "a")]])])
      = .ok [Json.jobj [("username", .jstr "a")]] := by
  exact C8_format_tolerance [Json.jobj [("username", .jstr "a")]]
    [("data", .jarr [Json.jobj [("username", .jstr "a")]])] rfl

/-! ## Benford analysis (`benford_analysis.py:36-120`) -/

/-- One cell of the `followers` column after the JSON round trip: missing
(`NaN` for `pd.isna`), a number, or a string. -/
inductive CellVal where
  | vnull
  | vnum (n : Int)
  | vstr (s : String)
  deriving DecidableEq

/-- Python `str(valor)` on a followers cell (never applied to the missing
case, which `pd.isna` filters first). -/
def strOfCell : CellVal → String
  | .vnull => ""
  | .vnum n => toString n
  | .vstr s => s

/-- `re.search(r"[1-9]", s)` applied at one character: the digit value of a
character in `1`–`9`, else nothing. -/
def digitFn (c : Char) : Option Nat :=
  if 0x31 ≤ c.toNat ∧ c.toNat ≤ 0x39 then some (c.toNat - 48) else none

/-- `primer_digito_valor`: `NaN` for a missing value, else the first
character in `1`–`9` of `str(valor).strip().replace(",", "")`. -/
def primerDigitoValor (v : CellVal) : Option Nat :=
  match v with
  | .vnull => none
  | w => ((pyStripL (strOfCell w).data).filter (fun c => c ≠ ',')).findSome? digitFn

/-- The per-digit counts of `value_counts().reindex(digitos, fill_value=0)`. -/
def conteoDigito (vals : List CellVal) (d : Nat) : Nat :=
  vals.countP (fun v => decide (primerDigitoValor v = some d))

/-- Output of a successful `analizar_benford` run: the comparison counts,
the real frequencies, and the two files it writes. -/
structure BenfordOutput where
  conteos : List (Nat × Nat)
  porcentajeReal : List ℚ
  excelFile : String
  pngFile : String

/-- `analizar_benford(json_file, profile)` from the `followers` column on:
when no row yields a valid first digit it prints a warning and returns
`None` before writing any Excel or PNG output; otherwise it builds the
comparison table and writes `benford_{profile}.xlsx` and
`benford_{profile}.png`. -/
def analizarBenford (vals : List CellVal) (profile : String) :
    Option BenfordOutput :=
  let digitos := List.range' 1 9
  let conteos := digitos.map (fun d => (d, conteoDigito vals d))
  let totalValidos := (conteos.map Prod.snd).sum
  if totalValidos = 0 then none
  else
    some
      { conteos := conteos
        porcentajeReal := conteos.map (fun p => ((p.2 : ℚ) / (totalValidos : ℚ)) * 100)
        excelFile := "benford_" ++ profile ++ ".xlsx"
        pngFile := "benford_" ++ profile ++ ".png" }

theorem digitFn_of_space (c : Char) (h : isPySpace c = true) : digitFn c = none := by
  simp only [isPySpace, Bool.or_eq_true, decide_eq_true_eq, Bool.and_eq_true] at h
  unfold digitFn
  rw [if_neg]
  intro hcon
  obtain ⟨h1, h2⟩ := hcon
  casesm* _ ∨ _ <;> omega

theorem findSomeAppend (f : α → Option β) (l₁ l₂ : List α) :
    (l₁ ++ l₂).findSome? f
      = match l₁.findSome? f with
        | some b => some b
        | none => l₂.findSome? f := by
  induction l₁ with
  | nil => simp [List.findSome?]
  | cons a as ih =>
    simp only [List.cons_append, List.findSome?]
    cases f a with
    | some b => rfl
    | none => exact ih

theorem findSome_all_none (f : α → Option β) (l : List α)
    (h : ∀ a ∈ l, f a = none) : l.findSome? f = none := by
  induction l with
  | nil => rfl
  | cons a as ih =>
    simp only [List.findSome?, h a (List.mem_cons_self a as)]
    exact ih fun x hx => h x (List.mem_cons_of_mem a hx)

theorem findSome_dropWhile_space (l : List Char) :
    (l.dropWhile isPySpace).findSome? digitFn = l.findSome? digitFn := by
  conv_rhs => rw [← takeWhile_append_dropWhile_eq isPySpace l]
  rw [findSomeAppend]
  rw [findSome_all_none digitFn (l.takeWhile isPySpace)
    (fun a ha => digitFn_of_space a (List.mem_takeWhile_imp ha))]

theorem findSome_pyStrip (l : List Char) :
    (pyStripL l).findSome? digitFn = l.findSome? digitFn := by
  unfold pyStripL
  set m := l.dropWhile isPySpace with hm
  have hsplit : m = (m.reverse.dropWhile isPySpace).reverse
      ++ (m.reverse.takeWhile isPySpace).reverse := by
    conv_lhs => rw [← m.reverse_reverse]
    conv_lhs =>
      rw [← takeWhile_append_dropWhile_eq isPySpace m.reverse]
    rw [List.reverse_append]
  have h2 : m.findSome? digitFn
      = ((m.reverse.dropWhile isPySpace).reverse).findSome? digitFn := by
    conv_lhs => rw [hsplit]
    rw [findSomeAppend]
    rw [findSome_all_none digitFn (m.reverse.takeWhile isPySpace).reverse
      (fun a ha => digitFn_of_space a
        (List.mem_takeWhile_imp (List.mem_reverse.mp ha)))]
    cases ((m.reverse.dropWhile isPySpace).reverse).findSome? digitFn <;> rfl
  rw [← h2, hm, findSome_dropWhile_space]

theorem findSome_filter_comma (l : List Char) :
    (l.filter (fun c => c ≠ ',')).findSome? digitFn = l.findSome? digitFn := by
  induction l with
  | nil => rfl
  | cons c rest ih =>
    by_cases hc : c = ','
    · subst hc
      rw [List.filter_cons_of_neg (by simp)]
      rw [ih]
      simp [List.findSome?, digitFn]
    · rw [List.filter_cons_of_pos (by simp [hc])]
      simp only [List.findSome?]
      cases digitFn c with
      | some b => rfl
      | none => exact ih

/-- **C10**: if no record of the dataset yields a first digit in `1`–`9`
(for instance because every `followers` field is absent), `analizar_benford`
returns `None` — producing neither the Excel nor the PNG output and never
dividing by zero — and each record's first digit is the leftmost character
in `1`–`9` of its followers value (strip and comma removal cannot change
it), or absent when no such character exists. -/
theorem C10_benford_no_valid_digits :
    (∀ (vals : List CellVal) (profile : String),
      (∀ v ∈ vals, primerDigitoValor v = none) →
      analizarBenford vals profile = none) ∧
    (∀ s : String, primerDigitoValor (.vstr s) = s.data.findSome? digitFn) ∧
    (∀ n : Int, primerDigitoValor (.vnum n)
      = (toString n).data.findSome? digitFn) ∧
    primerDigitoValor .vnull = none := by
  refine ⟨?_, ?_, ?_, rfl⟩
  · intro vals profile hall
    unfold analizarBenford
    simp only
    rw [if_pos]
    have hz : ∀ d, conteoDigito vals d = 0 := by
      intro d
      refine List.countP_eq_zero.mpr ?_
      intro v hv
      simp [hall v hv]
    refine List.sum_eq_zero ?_
    intro x hx
    simp only [List.map_map, List.mem_map] at hx
    obtain ⟨d, _, rfl⟩ := hx
    exact hz d
  · intro s
    show ((pyStripL s.data).filter (fun c => c ≠ ',')).findSome? digitFn = _
    rw [findSome_filter_comma, findSome_pyStrip]
  · intro n
    show ((pyStripL (toString n).data).filter (fun c => c ≠ ',')).findSome? digitFn = _
    rw [findSome_filter_comma, findSome_pyStrip]

/-- Witness for C10: a dataset of one absent and one digit-free followers
value yields no Benford output; concrete first-digit extractions. -/
theorem C10_witness :
    analizarBenford [CellVal.vnull, CellVal.vstr "sin datos"] "perfil" = none ∧
    primerDigitoValor (.vstr " 0x7,9 ") = (" 0x7,9 ").data.findSome? digitFn ∧
    primerDigitoValor (.vnum 205) = (toString (205 : Int)).data.findSome? digitFn ∧
    primerDigitoValor .vnull = none := by
  exact ⟨C10_benford_no_valid_digits.1 _ "perfil" (by decide),
    C10_benford_no_valid_digits.2.1 " 0x7,9 ",
    C10_benford_no_valid_digits.2.2.1 205,
    C10_benford_no_valid_digits.2.2.2⟩

/-! ## Text Classifier (`analyze_bio.py:35-190`)

`clean_text` and `tokenize` are re-implemented character by character:
emoji stripping, bullet replacement, URL removal, the allowed-character
filter, lowering (ASCII plus the Spanish accented letters), strip, and
whitespace collapapse; `re.findall(r"[#@]?\w+", ...)` becomes a scanner over
the cleaned characters. -/

/-- The `RE_EMOJI` character class of `analyze_bio.py`. -/
def isEmojiChar (c : Char) : Bool :=
  (0x1F600 ≤ c.toNat && c.toNat ≤ 0x1F64F) ||
  (0x1F300 ≤ c.toNat && c.toNat ≤ 0x1F5FF) ||
  (0x1F680 ≤ c.toNat && c.toNat ≤ 0x1F6FF) ||
  (0x1F1E0 ≤ c.toNat && c.toNat ≤ 0x1F1FF)

/-- `RE_EMOJI.sub(" ", text)` (the final whitespace collapse makes the
run-versus-character replacement granularity irrelevant). -/
def subEmoji (l : List Char) : List Char :=
  l.map (fun c => if isEmojiChar c then ' ' else c)

/-- `text.replace("•", " ").replace("·", " ")`. -/
def subBullets (l : List Char) : List Char :=
  l.map (fun c => if c = '•' || c = '·' then ' ' else c)

/-- Does `https?://\S+` match at the head of the text? -/
def isUrlAt (l : List Char) : Bool :=
  (("https://".data.isPrefixOf l) &&
    (match l.get? 8 with
     | some c => !isPySpace c
     | none => false)) ||
  (("http://".data.isPrefixOf l) &&
    (match l.get? 7 with
     | some c => !isPySpace c
     | none => false))

/-- The text consumed by a `https?://\S+` match is the maximal non-space run
from the match start (the scheme itself contains no space). -/
def dropUrl (l : List Char) : List Char :=
  l.dropWhile (fun c => !isPySpace c)

theorem dropUrl_lt (c : Char) (rest : List Char)
    (h : isUrlAt (c :: rest) = true) :
    (dropUrl (c :: rest)).length < (c :: rest).length := by
  have hc : c = 'h' := by
    simp only [isUrlAt, Bool.or_eq_true, Bool.and_eq_true] at h
    rcases h with ⟨hp, _⟩ | ⟨hp, _⟩ <;>
      · simp only [List.isPrefixOf, Bool.and_eq_true, beq_iff_eq] at hp
        exact hp.1.symm
  subst hc
  unfold dropUrl
  rw [List.dropWhile_cons_of_pos (by decide)]
  have := dropWhile_length_le (fun c => !isPySpace c) rest
  simp only [List.length_cons]
  omega

/-- `re.sub(r"https?://\S+", " ", text)`: left-to-right scan, each match
replaced by one space, scanning resuming after the match. -/
def removeUrls (l : List Char) : List Char :=
  match l with
  | [] => []
  | c :: rest =>
    if h : isUrlAt (c :: rest) then ' ' :: removeUrls (dropUrl (c :: rest))
    else c :: removeUrls rest
termination_by l.length
decreasing_by
  · exact dropUrl_lt c rest h
  · simp

/-- The character class kept by
`re.sub(r"[^0-9a-zA-ZáéíóúüñÁÉÍÓÚÜÑ#@_\s\.\,]", " ", text)`. -/
def isAllowedChar (c : Char) : Bool :=
  (48 ≤ c.toNat && c.toNat ≤ 57) || (97 ≤ c.toNat && c.toNat ≤ 122) ||
  (65 ≤ c.toNat && c.toNat ≤ 90) ||
  c = 'á' || c = 'é' || c = 'í' || c = 'ó' || c = 'ú' || c = 'ü' || c = 'ñ' ||
  c = 'Á' || c = 'É' || c = 'Í' || c = 'Ó' || c = 'Ú' || c = 'Ü' || c = 'Ñ' ||
  c = '#' || c = '@' || c = '_' || isPySpace c || c = '.' || c = ','

/-- Replace every disallowed character by a space. -/
def charFilter (l : List Char) : List Char :=
  l.map (fun c => if isAllowedChar c then c else ' ')

/-- Python `str.lower()` on the character universe of `clean_text` (ASCII
letters plus the Spanish accented letters). -/
def lowerSp (c : Char) : Char :=
  if 65 ≤ c.toNat && c.toNat ≤ 90 then Char.ofNat (c.toNat + 32)
  else if c = 'Á' then 'á'
  else if c = 'É' then 'é'
  else if c = 'Í' then 'í'
  else if c = 'Ó' then 'ó'
  else if c = 'Ú' then 'ú'
  else if c = 'Ü' then 'ü'
  else if c = 'Ñ' then 'ñ'
  else c

/-- `re.sub(r"\s+", " ", text)`: each whitespace run becomes one space. -/
def collapseWs (l : List Char) : List Char :=
  match l with
  | [] => []
  | c :: rest =>
    if isPySpace c then ' ' :: collapseWs (rest.dropWhile isPySpace)
    else c :: collapseWs rest
termination_by l.length
decreasing_by
  · have := dropWhile_length_le isPySpace rest
    simp only [List.length_cons]
    omega
  · simp

/-- `clean_text`: emoji removal, bullet replacement, URL removal, character
filter, lower, strip, whitespace collapse. -/
def cleanText (s : String) : String :=
  ⟨collapseWs (pyStripL ((charFilter (removeUrls (subBullets
    (subEmoji s.data)))).map lowerSp))⟩

/-- Python `\w` over the character universe of the cleaned text. -/
def isWordChar (c : Char) : Bool :=
  (48 ≤ c.toNat && c.toNat ≤ 57) || (97 ≤ c.toNat && c.toNat ≤ 122) ||
  (65 ≤ c.toNat && c.toNat ≤ 90) || c = '_' ||
  c = 'á' || c = 'é' || c = 'í' || c = 'ó' || c = 'ú' || c = 'ü' || c = 'ñ' ||
  c = 'Á' || c = 'É' || c = 'Í' || c = 'Ó' || c = 'Ú' || c = 'Ü' || c = 'Ñ'

/-- `re.findall(r"[#@]?\w+", text)`: a word-character run, optionally led by
a single `#` or `@`; positions that start no match are skipped one by one. -/
def tokenizeChars (l : List Char) : List (List Char) :=
  match l with
  | [] => []
  | c :: rest =>
    if isWordChar c then
      (c :: rest.takeWhile isWordChar) :: tokenizeChars (rest.dropWhile isWordChar)
    else if c = '#' || c = '@' then
      match rest with
      | d :: tail =>
        if isWordChar d then
          (c :: (d :: tail).takeWhile isWordChar)
            :: tokenizeChars ((d :: tail).dropWhile isWordChar)
        else tokenizeChars (d :: tail)
      | [] => []
    else tokenizeChars rest
termination_by l.length
decreasing_by
  all_goals simp only [List.length_cons]
  all_goals first
    | omega
    | (have h1 := dropWhile_length_le isWordChar rest
       omega)
    | (have h2 := dropWhile_length_le isWordChar (d :: tail)
       simp only [List.length_cons] at h2
       omega)

/-- `tokenize`: token list of the cleaned text. -/
def tokenize (s : String) : List String :=
  (tokenizeChars (cleanText s).data).map (fun t => ⟨t⟩)

/-- `KEYWORD_MAP` of `analyze_bio.py`, in source order. -/
def KEYWORD_MAP : List (String × List String) :=
  [("developer", ["developer", "desarrollador", "engineer", "ingeniero",
      "software", "backend", "frontend", "fullstack", "programmer", "python",
      "java", "javascript", "react", "nodejs"]),
   ("student", ["student", "estudiante", "universidad", "facultad", "grado",
      "alumno"]),
   ("photographer", ["photographer", "fotógraf", "fotografo", "fotografía",
      "photo", "foto", "fotograf"]),
   ("influencer", ["influencer", "content creator", "creador de contenido",
      "colabs", "sponsored", "brand", "ambassador"]),
   ("model", ["model", "modelo", "agency", "agencia"]),
   ("musician", ["musician", "cantante", "música", "músico", "dj", "singer",
      "guitar", "banda"]),
   ("dancer", ["bailarin", "bailarina", "dancer", "danza", "dance"]),
   ("chef", ["chef", "cocinero", "cocinera", "cocina", "foodie",
      "chefpatissier"]),
   ("fitness", ["trainer", "entrenador", "fitness", "gym", "crossfit",
      "personal trainer", "fit", "salud"]),
   ("journalist", ["journalist", "periodista", "reporter", "reportera",
      "editor"]),
   ("teacher", ["teacher", "profesor", "docente", "educador"]),
   ("business", ["ceo", "founder", "co-founder", "emprendedor", "empresa",
      "startup", "entrepreneur", "negocios"]),
   ("designer", ["diseñador", "designer", "ux", "ui", "graphic", "diseño",
      "illustrator"]),
   ("writer", ["writer", "autor", "escritor", "blogger", "blog"]),
   ("gamer", ["gamer", "streamer", "twitch", "gaming"]),
   ("travel", ["travel", "viajes", "viajero", "traveler", "travel blogger"])]

/-- `WEIGHT_BIO = 0.75`. -/
def WEIGHT_BIO : ℚ := 3 / 4

/-- `WEIGHT_CAPTIONS = 0.25`. -/
def WEIGHT_CAPTIONS : ℚ := 1 / 4

/-- `SCORE_THRESHOLD = 0.08`. -/
def SCORE_THRESHOLD : ℚ := 2 / 25

/-- `" ".join(text_tokens)`. -/
def joinTokens (ts : List String) : String :=
  ⟨joinWithSpace (ts.map String.data)⟩

/-- Python `kw in joined` (substring containment). -/
def isSubListOf (k : List Char) : List Char → Bool
  | [] => k.isEmpty
  | c :: rest => k.isPrefixOf (c :: rest) || isSubListOf k rest

/-- `kw in joined` on strings. -/
def isSubstr (kw s : String) : Bool :=
  isSubListOf kw.data s.data

/-- Is position `i` adjacent to a word character on the given side?  Out of
range counts as non-word. -/
def wordAt (l : List Char) (i : Nat) : Bool :=
  match l.get? i with
  | some c => isWordChar c
  | none => false

/-- Does `\b` match between positions `i - 1` and `i`? -/
def boundaryAt (l : List Char) (i : Nat) : Bool :=
  (if i = 0 then false else wordAt l (i - 1)) != wordAt l i

/-- `re.search(r"\b" + re.escape(kw) + r"\b", joined)`: an occurrence of the
literal `kw` with word boundaries on both sides. -/
def wbMatch (kw s : String) : Bool :=
  (List.range (s.data.length + 1)).any (fun i =>
    kw.data.isPrefixOf (s.data.drop i) && boundaryAt s.data i &&
    boundaryAt s.data (i + kw.data.length))

/-- The three-step `elif` chain of `score_text_against_keywords` for one
keyword: exact token, word-boundary occurrence, plain substring — each
keyword contributes at most one match. -/
def kwMatch (tokens : List String) (joined : String) (kw0 : String) : Bool :=
  let kw : String := ⟨kw0.data.map lowerSp⟩
  tokens.contains kw || wbMatch kw joined || isSubstr kw joined

/-- `score_text_against_keywords(text_tokens, keyword_map)`: per label, how
many of its keywords match. -/
def scoreTextAgainstKeywords (tokens : List String)
    (kmap : List (String × List String)) : List (String × Nat) :=
  let joined := joinTokens tokens
  kmap.map (fun lk => (lk.1, lk.2.countP (fun kw => kwMatch tokens joined kw)))

/-- `keyword_map.get(label, [])`. -/
def keywordsOf (kmap : List (String × List String)) (label : String) :
    List String :=
  match kmap.find? (fun lk => lk.1 == label) with
  | some lk => lk.2
  | none => []

/-- `normalize_scores`: each count divided by
`max(1, len(keyword_map.get(label, [])))`. -/
def normalizeScores (raw : List (String × Nat))
    (kmap : List (String × List String)) : List (String × ℚ) :=
  raw.map (fun lc =>
    (lc.1, (lc.2 : ℚ) / ((max 1 (keywordsOf kmap lc.1).length : Nat) : ℚ)))

/-- `scores.get(label, 0.0)`. -/
def lookupScore (scores : List (String × ℚ)) (label : String) : ℚ :=
  match scores.find? (fun e => e.1 == label) with
  | some e => e.2
  | none => 0

/-- `sorted(combined.items(), key=score, reverse=True)[0]`: the first entry
achieving the maximal score (Python's sort is stable, so ties keep map
order).  The empty case cannot arise for the non-empty `KEYWORD_MAP`. -/
def pickBest : List (String × ℚ) → String × ℚ
  | [] => ("", 0)
  | x :: rest => rest.foldl (fun acc y => if acc.2 < y.2 then y else acc) x

/-- The caption token accumulation of `classify_profile`. -/
def capTokensOf (captions : List String) : List String :=
  captions.foldl (fun acc c => acc ++ tokenize c) []

/-- The `combined` scores of `classify_profile`:
`WEIGHT_BIO * bio_norm.get(label, 0.0) + WEIGHT_CAPTIONS *
cap_norm.get(label, 0.0)` per label of the map. -/
def combinedScores (bio : String) (captions : List String) :
    List (String × ℚ) :=
  let bioNorm := normalizeScores
    (scoreTextAgainstKeywords (tokenize bio) KEYWORD_MAP) KEYWORD_MAP
  let capNorm := normalizeScores
    (scoreTextAgainstKeywords (capTokensOf captions) KEYWORD_MAP) KEYWORD_MAP
  KEYWORD_MAP.map (fun lk =>
    (lk.1, WEIGHT_BIO * lookupScore bioNorm lk.1
      + WEIGHT_CAPTIONS * lookupScore capNorm lk.1))

/-- `classify_profile(bio, captions)`: the best label (or `"unknown"` below
the threshold) and the best combined score. -/
def classifyProfile (bio : String) (captions : List String) : String × ℚ :=
  let best := pickBest (combinedScores bio captions)
  (if best.2 < SCORE_THRESHOLD then "unknown" else best.1, best.2)

theorem find_of_mem_nodupkeys (kmap : List (String × List String))
    (lk : String × List String) (hnd : (kmap.map Prod.fst).Nodup)
    (hmem : lk ∈ kmap) : kmap.find? (fun e => e.1 == lk.1) = some lk := by
  induction kmap with
  | nil => cases hmem
  | cons x rest ih =>
    simp only [List.map_cons, List.nodup_cons] at hnd
    rcases List.mem_cons.mp hmem with rfl | hmem'
    · simp [List.find?]
    · have hx : (x.1 == lk.1) = false := by
        rw [beq_eq_false_iff_ne]
        intro hEq
        exact hnd.1 (hEq ▸ List.mem_map.mpr ⟨lk, hmem', rfl⟩)
      simp only [List.find?, hx]
      exact ih hnd.2 hmem'

theorem lookupScore_scoreNorm_bounds (tokens : List String) (label : String) :
    0 ≤ lookupScore
        (normalizeScores (scoreTextAgainstKeywords tokens KEYWORD_MAP)
          KEYWORD_MAP) label ∧
    lookupScore
        (normalizeScores (scoreTextAgainstKeywords tokens KEYWORD_MAP)
          KEYWORD_MAP) label ≤ 1 := by
  unfold lookupScore
  cases hf : (normalizeScores (scoreTextAgainstKeywords tokens KEYWORD_MAP)
      KEYWORD_MAP).find? (fun e => e.1 == label) with
  | none => norm_num
  | some e =>
    have hmem := List.mem_of_find?_eq_some hf
    simp only [normalizeScores, scoreTextAgainstKeywords, List.map_map,
      List.mem_map, Function.comp] at hmem
    obtain ⟨lk, hlk, rfl⟩ := hmem
    simp only
    have hkw : keywordsOf KEYWORD_MAP lk.1 = lk.2 := by
      unfold keywordsOf
      rw [find_of_mem_nodupkeys KEYWORD_MAP lk (by decide) hlk]
    rw [hkw]
    have h1 : lk.2.countP (fun kw => kwMatch tokens (joinTokens tokens) kw)
        ≤ lk.2.length := List.countP_le_length _
    have hpos : (0 : ℚ) < ((max 1 lk.2.length : Nat) : ℚ) := by
      have h : 1 ≤ max 1 lk.2.length := Nat.le_max_left 1 _
      exact_mod_cast Nat.lt_of_lt_of_le Nat.zero_lt_one h
    constructor
    · positivity
    · rw [div_le_one hpos]
      have h2 : lk.2.countP (fun kw => kwMatch tokens (joinTokens tokens) kw)
          ≤ max 1 lk.2.length := le_trans h1 (Nat.le_max_right 1 _)
      exact_mod_cast h2

theorem combinedScores_bounds (bio : String) (captions : List String) :
    ∀ e ∈ combinedScores bio captions, 0 ≤ e.2 ∧ e.2 ≤ 1 := by
  intro e he
  simp only [combinedScores, List.mem_map] at he
  obtain ⟨lk, _, rfl⟩ := he
  obtain ⟨hb0, hb1⟩ := lookupScore_scoreNorm_bounds (tokenize bio) lk.1
  obtain ⟨hc0, hc1⟩ := lookupScore_scoreNorm_bounds (capTokensOf captions) lk.1
  unfold WEIGHT_BIO WEIGHT_CAPTIONS
  constructor <;> simp only <;> nlinarith

theorem pickBest_foldl_mem (rest : List (String × ℚ)) :
    ∀ acc : String × ℚ,
      rest.foldl (fun a y => if a.2 < y.2 then y else a) acc = acc ∨
      rest.foldl (fun a y => if a.2 < y.2 then y else a) acc ∈ rest := by
  induction rest with
  | nil => intro acc; exact Or.inl rfl
  | cons y ys ih =>
    intro acc
    simp only [List.foldl_cons]
    rcases ih (if acc.2 < y.2 then y else acc) with h | h
    · rw [h]
      by_cases hc : acc.2 < y.2
      · rw [if_pos hc]; exact Or.inr (List.mem_cons_self y ys)
      · rw [if_neg hc]; exact Or.inl rfl
    · exact Or.inr (List.mem_cons_of_mem y h)

theorem pickBest_mem (l : List (String × ℚ)) (hl : l ≠ []) : pickBest l ∈ l := by
  match l with
  | x :: rest =>
    show rest.foldl (fun acc y => if acc.2 < y.2 then y else acc) x ∈ x :: rest
    rcases pickBest_foldl_mem rest x with h | h
    · rw [h]; exact List.mem_cons_self x rest
    · exact List.mem_cons_of_mem x h

set_option maxRecDepth 8192

/-- **C9**: for every bio string and caption list, `classify_profile`
returns a score in the closed interval `[0, 1]` (each keyword of a label
contributes at most one match through the `elif` chain, counts are divided
by `max(1, #keywords)` of the label, and the weights `0.75` and `0.25` sum
to `1`), and it returns the label `"unknown"` exactly when the best combined
score is below the threshold `0.08`. -/
theorem C9_classifier_bounds_and_threshold (bio : String)
    (captions : List String) :
    0 ≤ (classifyProfile bio captions).2 ∧
    (classifyProfile bio captions).2 ≤ 1 ∧
    ((classifyProfile bio captions).1 = "unknown" ↔
      (classifyProfile bio captions).2 < SCORE_THRESHOLD) := by
  have hne : combinedScores bio captions ≠ [] := by
    unfold combinedScores KEYWORD_MAP
    simp
  have hmem := pickBest_mem (combinedScores bio captions) hne
  obtain ⟨h0, h1⟩ := combinedScores_bounds bio captions _ hmem
  have hsnd : (classifyProfile bio captions).2
      = (pickBest (combinedScores bio captions)).2 := rfl
  have hfst : (classifyProfile bio captions).1
      = (if (pickBest (combinedScores bio captions)).2 < SCORE_THRESHOLD
          then "unknown" else (pickBest (combinedScores bio captions)).1) := rfl
  refine ⟨hsnd ▸ h0, hsnd ▸ h1, ?_⟩
  rw [hsnd, hfst]
  by_cases hthr : (pickBest (combinedScores bio captions)).2 < SCORE_THRESHOLD
  · rw [if_pos hthr]
    simp [hthr]
  · rw [if_neg hthr]
    simp only [hthr, iff_false]
    intro hlab
    have hk : (pickBest (combinedScores bio captions)).1
        ∈ (combinedScores bio captions).map Prod.fst :=
      List.mem_map_of_mem Prod.fst hmem
    have hkeys : (combinedScores bio captions).map Prod.fst
        = KEYWORD_MAP.map Prod.fst := by
      unfold combinedScores
      rw [List.map_map]
      exact List.map_congr_left fun a _ => rfl
    rw [hkeys, hlab] at hk
    exact (by decide : ("unknown" : String) ∉ KEYWORD_MAP.map Prod.fst) hk

end Insta
